import Mathlib

/-!
The curl speed tester.

A shallow embedding of `src/app.js` and `src/s3_uploader.js`.

JavaScript strings are modelled as lists of characters (`Str`), one character
per UTF-16 code unit; text outside the Basic Multilingual Plane is not
represented.  Every index the source uses (`substring(13)`, `substring(10)`,
`substring(5)`, `substring(1)`, `substring(0, 19)`) is applied here with
`List.drop` and `List.take`.  `toLowerCase` is modelled on the ASCII letters,
which is all the marker comparison of `parseHeader` can observe: the three
markers are ASCII.  Console output is not part of the model, so the `finally`
block of the loop body, which only prints, does not appear.
-/

namespace CurlSpeedTester

/-- A JavaScript string. -/
abbrev Str := List Char

/-! ## String primitives of the platform -/

/-- The characters `String.prototype.trim` removes: ECMAScript `WhiteSpace`
and `LineTerminator`. -/
def isWhiteSpace (c : Char) : Bool :=
  let n := c.toNat
  n == 0x09 || n == 0x0A || n == 0x0B || n == 0x0C || n == 0x0D || n == 0x20 ||
  n == 0xA0 || n == 0x1680 || (0x2000 ≤ n && n ≤ 0x200A) || n == 0x2028 ||
  n == 0x2029 || n == 0x202F || n == 0x205F || n == 0x3000 || n == 0xFEFF

/-- The method `s.trim()`. -/
def trim (s : Str) : Str :=
  (s.dropWhile isWhiteSpace).rdropWhile isWhiteSpace

/-- Lower-casing of one character (ASCII letters). -/
def toLowerChar (c : Char) : Char :=
  if 65 ≤ c.toNat ∧ c.toNat ≤ 90 then Char.ofNat (c.toNat + 32) else c

/-- The method `s.toLowerCase()`. -/
def toLowerCase (s : Str) : Str := s.map toLowerChar

/-- The method `s.startsWith(p)`. -/
def startsWith (s p : Str) : Bool := p.isPrefixOf s

/-- The first occurrence of `pat` in a string, as the text before it and the
text after it. -/
def splitAtFirst (pat : Str) : Str → Option (Str × Str)
  | [] => if pat.isPrefixOf [] then some ([], []) else none
  | c :: cs =>
    if pat.isPrefixOf (c :: cs) then some ([], (c :: cs).drop pat.length)
    else (splitAtFirst pat cs).map (fun r => (c :: r.1, r.2))

/-- ECMAScript `GetSubstitution` for a string pattern (no capture groups):
in the replacement text `$$` stands for `$`, `$&` for the matched text,
`$` followed by a backquote for the text before the match, `$` followed by an
apostrophe for the text after it; any other `$` is literal. -/
def getSubstitution (matched before after : Str) : Str → Str
  | [] => []
  | c :: rest =>
    if c = '$' then
      match rest with
      | [] => [c]
      | d :: rest2 =>
        if d = '$' then '$' :: getSubstitution matched before after rest2
        else if d = '&' then matched ++ getSubstitution matched before after rest2
        else if d = Char.ofNat 96 then before ++ getSubstitution matched before after rest2
        else if d = Char.ofNat 39 then after ++ getSubstitution matched before after rest2
        else c :: d :: getSubstitution matched before after rest2
    else c :: getSubstitution matched before after rest

/-- The method `s.replace(pat, repl)` with a string pattern: the first occurrence only. -/
def replace (s pat repl : Str) : Str :=
  match splitAtFirst pat s with
  | none => s
  | some (before, after) => before ++ getSubstitution pat before after repl ++ after

/-- The method `s.split(sep)` for a one-character separator. -/
def split (sep : Char) : Str → List Str
  | [] => [[]]
  | c :: cs =>
    if c = sep then [] :: split sep cs
    else
      match split sep cs with
      | [] => [[c]]
      | l :: ls => (c :: l) :: ls

/-! ## `parseHeader` (app.js, lines 60-75) -/

/-- The keys `parseHeader` can return. -/
inductive HeaderKey
  | xServedBy
  | xCache
  | date
  deriving DecidableEq, Repr

/-- The object `{ key, value }` returned by `parseHeader`. -/
structure Header where
  key : HeaderKey
  value : Str
  deriving DecidableEq, Repr

/-- The marker prefix tested for each key. -/
def marker : HeaderKey → Str
  | .xServedBy => "x-served-by:".toList
  | .xCache => "x-cache:".toList
  | .date => "date:".toList

/-- The local `lowerLine` of `parseHeader`. -/
def lowerLine (line : Str) : Str := replace (toLowerCase line) "< ".toList []

/-- The function `parseHeader(line)`; `none` is the `null` of the source. -/
def parseHeader (line : Str) : Option Header :=
  if startsWith (lowerLine line) "x-served-by:".toList then
    some ⟨.xServedBy, trim (line.drop 13)⟩
  else if startsWith (lowerLine line) "x-cache:".toList then
    some ⟨.xCache, trim (line.drop 10)⟩
  else if startsWith (lowerLine line) "date:".toList then
    some ⟨.date, trim (line.drop 5)⟩
  else none

/-! ## The effect model

Calls that leave the process are recorded as events; a rejected promise or
a thrown exception is an `Except.error`. -/

/-- What can be thrown or rejected in the model. -/
inductive Err
  | spawnError
  | curlExit (code : Option Nat) (fullLog : Str)
  | invalidURL (input : Str)
  | typeError
  | writeError
  | sendError
  | httpError
  deriving DecidableEq, Repr

/-- The argument of `postResultsToLogServer` built in `runAllTests`. -/
structure ReportRecord where
  url : Str
  curl_command : Str
  location : Str
  machine_type : Str
  test_date : Str
  speed : Str
  x_cache : Str
  x_served_by : Str
  s3_log_key : Str
  deriving DecidableEq, Repr

/-- The calls that leave the process. `uploadToS3` records entry into the
function of that name, `s3Send` the `PutObjectCommand` sent by it. -/
inductive Event
  | mkdir (dir : Str)
  | spawn (command : Str) (args : List Str)
  | writeFile (path content : Str)
  | uploadToS3 (logContent fileKey : Str)
  | s3Send (bucket : Option Str) (key body contentType : Str)
  | axiosPost (endpoint : Str) (data : ReportRecord)
  deriving DecidableEq, Repr

deriving instance DecidableEq for Except

/-- A computation: the events it emitted, and its value or the error it
threw. -/
structure Eff (α : Type) where
  events : List Event
  result : Except Err α

namespace Eff

/-- Sequencing: the continuation runs only after a normal return. -/
def bind {α β : Type} (m : Eff α) (f : α → Eff β) : Eff β :=
  match m.result with
  | .ok a => ⟨m.events ++ (f a).events, (f a).result⟩
  | .error e => ⟨m.events, .error e⟩

/-- The statement `try body catch (e) handler`. -/
def tryCatch {α : Type} (body : Eff α) (handler : Err → Eff α) : Eff α :=
  match body.result with
  | .ok a => ⟨body.events, .ok a⟩
  | .error e => ⟨body.events ++ (handler e).events, (handler e).result⟩

/-- One recorded call. -/
def emit (e : Event) : Eff Unit := ⟨[e], .ok ()⟩

/-- An awaited platform call that resolves or rejects. -/
def settle (ok : Bool) (e : Err) : Eff Unit := ⟨[], if ok then .ok () else .error e⟩

end Eff

instance : Monad Eff where
  pure a := ⟨[], .ok a⟩
  bind := Eff.bind

instance : MonadExcept Err Eff where
  throw e := ⟨[], .error e⟩
  tryCatch := Eff.tryCatch

/-! ## Target list (app.js, lines 22-25) -/

/-- One entry of `URLS_TO_TEST`. -/
structure Target where
  url : Str
  deriving DecidableEq, Repr

/-- The constant `URLS_TO_TEST`, as a function of the text of `urlsToTest.txt`. -/
def URLS_TO_TEST (fileText : Str) : List Target :=
  (((split (Char.ofNat 10) fileText).filter (fun line => trim line != [])).map
    (fun url => ({ url := trim url } : Target)))

/-- The constant `LOG_DIRECTORY`. -/
def LOG_DIRECTORY : Str := "./curl_logs".toList

/-! ## `createLogFileName` (app.js, lines 38-52) -/

/-- The part of a parsed `URL` object the program reads. -/
structure URL where
  pathname : Str
  deriving DecidableEq, Repr

/-- Membership in the class `[a-z0-9._-]` under the flag `i`. -/
def isFriendlyChar (c : Char) : Bool :=
  let n := c.toNat
  (97 ≤ n && n ≤ 122) || (65 ≤ n && n ≤ 90) || (48 ≤ n && n ≤ 57) ||
  c == '.' || c == '_' || c == '-'

/-- The function `createLogFileName(urlStr)`. The `new URL` of the platform (which throws on
text that is not an absolute URL) and the value of `new Date().toISOString()`
are inputs. -/
def createLogFileName (newURL : Str → Option URL) (isoNow : Str) (urlStr : Str) :
    Except Err Str :=
  match newURL urlStr with
  | none => .error (.invalidURL urlStr)
  | some url =>
    let pathPart := url.pathname.drop 1
    let replaced := pathPart.map (fun c => if isFriendlyChar c then c else '_')
    let friendlyName := if replaced = [] then "download".toList else replaced
    let timestamp := (isoNow.map (fun c => if c = ':' then '-' else c)).take 19
    .ok (friendlyName ++ "_".toList ++ timestamp ++ ".log".toList)

/-! ## The log scan of `executeCurl` (app.js, lines 82-145) -/

/-- The object `results` resolved by `executeCurl`. -/
structure Results where
  speed : Str
  xServedBy : Str
  xCache : Str
  date : Str
  fullLog : Str
  deriving DecidableEq, Repr

/-- The assignment `results[key] = value`. -/
def Results.set (r : Results) (key : HeaderKey) (value : Str) : Results :=
  match key with
  | .xServedBy => { r with xServedBy := value }
  | .xCache => { r with xCache := value }
  | .date => { r with date := value }

/-- Reading `results[key]`. -/
def Results.get (r : Results) : HeaderKey → Str
  | .xServedBy => r.xServedBy
  | .xCache => r.xCache
  | .date => r.date

/-- One turn of the loop over the lines. -/
def scanLine (results : Results) (line : Str) : Results :=
  match parseHeader line with
  | some header => results.set header.key header.value
  | none => results

/-- Lines 126-140 of the `close` handler: the initial `results` and the scan
of `fullLog.split('\n')`. -/
def parseLog (speed fullLog : Str) : Results :=
  (split (Char.ofNat 10) fullLog).foldl scanLine
    { speed := trim speed, xServedBy := [], xCache := [], date := [], fullLog := fullLog }

/-- The stream a `data` event comes from. -/
inductive Stream
  | stdout
  | stderr
  deriving DecidableEq, Repr

/-- What the spawned `curl` does: it cannot be started (the `error` event), or
it delivers `data` chunks in some order and closes with an exit code (`none`
when it was ended by a signal). -/
inductive CurlRun
  | failedToStart
  | closed (chunks : List (Stream × Str)) (code : Option Nat)
  deriving DecidableEq, Repr

/-- The variable `speed` at `close`: the stdout chunks. -/
def speedOf (chunks : List (Stream × Str)) : Str :=
  (chunks.filter (fun ch => ch.1 == Stream.stdout)).flatMap (fun ch => ch.2)

/-- The variable `fullLog` at `close`: all chunks in arrival order. -/
def fullLogOf (chunks : List (Stream × Str)) : Str :=
  chunks.flatMap (fun ch => ch.2)

/-- The array `curlArgs`. -/
def curlArgs (url : Target) : List Str :=
  ["-w".toList, "%\x7bspeed_download\x7d\n".toList, "-o".toList, "/dev/null".toList,
    url.url, "-v".toList]

/-- The function `executeCurl(url)`. -/
def executeCurl (url : Target) (run : CurlRun) : Eff Results := do
  Eff.emit (.spawn "curl".toList (curlArgs url))
  match run with
  | .failedToStart => throw Err.spawnError
  | .closed chunks code =>
    if code ≠ some 0 then throw (Err.curlExit code (fullLogOf chunks))
    else pure (parseLog (speedOf chunks) (fullLogOf chunks))

/-! ## `uploadToS3` (s3_uploader.js) -/

/-- The five values exported by `config.js`; `none` is an unset variable. -/
structure S3Config where
  S3_BUCKET_NAME : Option Str
  S3_REGION : Option Str
  S3_ENDPOINT : Option Str
  S3_ACCESS_KEY_ID : Option Str
  S3_SECRET_ACCESS_KEY : Option Str
  deriving DecidableEq, Repr

/-- Truthiness of an environment value: set and not the empty string. -/
def truthy : Option Str → Bool
  | none => false
  | some s => s != []

/-- The constant `s3Configured`. -/
def s3Configured (c : S3Config) : Bool :=
  truthy c.S3_BUCKET_NAME && truthy c.S3_REGION && truthy c.S3_ENDPOINT &&
  truthy c.S3_ACCESS_KEY_ID && truthy c.S3_SECRET_ACCESS_KEY

/-- The module variable `s3Client`: defined only when `s3Configured`. -/
def s3Client (c : S3Config) : Option S3Config :=
  if s3Configured c then some c else none

/-- The function `uploadToS3(logContent, fileKey)`; `sendOk` tells whether
`s3Client.send` resolves. -/
def uploadToS3 (c : S3Config) (sendOk : Bool) (logContent fileKey : Str) : Eff Unit := do
  Eff.emit (.uploadToS3 logContent fileKey)
  match s3Client c with
  | none => pure ()
  | some _ =>
    if logContent = [] then pure ()
    else
      try
        Eff.emit (.s3Send c.S3_BUCKET_NAME fileKey logContent "text/plain".toList)
        Eff.settle sendOk Err.sendError
      catch error => throw error

/-! ## `postResultsToLogServer` (logServer.js) -/

/-- The constant `LOG_SERVER_ENDPOINT`. -/
def LOG_SERVER_ENDPOINT : Str := "http://localhost:3000/tests".toList

/-- The function `postResultsToLogServer(data)`; `postOk` tells whether `axios.post`
resolves. Its `catch` only prints. -/
def postResultsToLogServer (postOk : Bool) (data : ReportRecord) : Eff Unit := do
  try
    Eff.emit (.axiosPost LOG_SERVER_ENDPOINT data)
    Eff.settle postOk Err.httpError
  catch _ => pure ()

/-! ## `runAllTests` (app.js, lines 150-230) -/

/-- The process-wide surroundings of a run. -/
structure Env where
  newURL : Str → Option URL
  mkdirOk : Bool
  curl_command : Option Str
  location : Option Str
  machine_type : Option Str
  s3 : S3Config

/-- What the outside world does during the iteration for one target. -/
structure Scenario where
  curl : CurlRun
  isoNow : Str
  writeFileOk : Bool
  sendOk : Bool
  postOk : Bool
  deriving DecidableEq, Repr

/-- The expression `v || "N/A"` on an environment value. -/
def orNA (v : Option Str) : Str :=
  if truthy v then v.getD [] else "N/A".toList

/-- The expression
`process.env.curl_command.replace('URL_GOES_HERE', url.url) || "N/A"`. -/
def curlCommandField (template : Option Str) (url : Str) : Except Err Str :=
  match template with
  | none => .error .typeError
  | some t =>
    let r := replace t "URL_GOES_HERE".toList url
    .ok (if r = [] then "N/A".toList else r)

/-- The call `path.join(LOG_DIRECTORY, logFileName)` for a file name without a
separator. -/
def logFilePathOf (logFileName : Str) : Str := "curl_logs/".toList ++ logFileName

/-- Lifting of a pure step that may throw. -/
def liftExcept {α : Type} (x : Except Err α) : Eff α := ⟨[], x⟩

/-- The object literal passed to `postResultsToLogServer`. -/
def reportRecord (env : Env) (url : Target) (results : Results) (logFileName : Str) :
    Except Err ReportRecord :=
  match curlCommandField env.curl_command url.url with
  | .error e => .error e
  | .ok cmd =>
    .ok { url := url.url
          curl_command := cmd
          location := orNA env.location
          machine_type := orNA env.machine_type
          test_date := results.date
          speed := results.speed
          x_cache := results.xCache
          x_served_by := results.xServedBy
          s3_log_key := logFileName }

/-- Lines 173-179: the local write inside its own `try`/`catch`. -/
def saveLocally (w : Scenario) (logFilePath : Str) (results : Results) : Eff Unit := do
  try
    Eff.emit (.writeFile logFilePath results.fullLog)
    Eff.settle w.writeFileOk Err.writeError
  catch _ => pure ()

/-- Lines 181-187: the upload inside its own `try`/`catch`. -/
def uploadLog (env : Env) (w : Scenario) (results : Results) (logFileName : Str) :
    Eff Unit := do
  try
    uploadToS3 env.s3 w.sendOk results.fullLog logFileName
  catch _ => pure ()

/-- Lines 202-217: the report inside its own `try`/`catch`. The argument
object is evaluated before `postResultsToLogServer` is entered. -/
def postReport (env : Env) (url : Target) (w : Scenario) (results : Results)
    (logFileName : Str) : Eff Unit := do
  try
    let data ← liftExcept (reportRecord env url results logFileName)
    postResultsToLogServer w.postOk data
  catch _ => pure ()

/-- The body of the `for` loop (lines 166-226) for one target. -/
def processTarget (env : Env) (url : Target) (w : Scenario) : Eff Unit := do
  try
    let results ← executeCurl url w.curl
    let logFileName ← liftExcept (createLogFileName env.newURL w.isoNow url.url)
    let logFilePath := logFilePathOf logFileName
    saveLocally w logFilePath results
    uploadLog env w results logFileName
    postReport env url w results logFileName
  catch _ => pure ()

/-- The `for` loop (lines 165-227). -/
def runLoop (env : Env) : List (Target × Scenario) → Eff Unit
  | [] => pure ()
  | (url, w) :: rest => do
    processTarget env url w
    runLoop env rest

/-- Lines 157-162: `true` when the log directory could be created, `false`
when the `catch` is entered. -/
def ensureLogDirectory (env : Env) : Eff Bool := do
  try
    Eff.emit (.mkdir LOG_DIRECTORY)
    Eff.settle env.mkdirOk Err.writeError
    pure true
  catch _ => pure false

/-- The function `runAllTests()`: the `catch` of the directory creation returns, otherwise
the loop runs. -/
def runAllTests (env : Env) (runs : List (Target × Scenario)) : Eff Unit := do
  let created ← ensureLogDirectory env
  if created then runLoop env runs else pure ()

/-! ## Notions used to state the properties -/

/-- A line that is empty or made of whitespace only. -/
def isBlank (line : Str) : Bool := line.all isWhiteSpace

/-- How many of the five remote-storage values are unset. -/
def absentCount (c : S3Config) : Nat :=
  ([c.S3_BUCKET_NAME, c.S3_REGION, c.S3_ENDPOINT, c.S3_ACCESS_KEY_ID,
    c.S3_SECRET_ACCESS_KEY].filter (fun v => v.isNone)).length

/-- The text `t` is `line` without its surrounding whitespace: `line` is `t`
between two runs of whitespace, and `t` neither starts nor ends with a
whitespace character. -/
def IsTrimmed (t line : Str) : Prop :=
  ∃ before after : Str, line = before ++ t ++ after ∧
    before.all isWhiteSpace = true ∧ after.all isWhiteSpace = true ∧
    (∀ c, t.head? = some c → isWhiteSpace c = false) ∧
    (∀ c, t.getLast? = some c → isWhiteSpace c = false)

/-- The marker text occurs somewhere in the line once the first `< ` of the
line is removed, letter case ignored. -/
def markerOccursStripped (k : HeaderKey) (line : Str) : Bool :=
  (replace (toLowerCase line) "< ".toList []).tails.any (fun t => (marker k).isPrefixOf t)

/-- The marker text occurs somewhere in the line, letter case ignored. -/
def markerOccurs (k : HeaderKey) (line : Str) : Bool :=
  (toLowerCase line).tails.any (fun t => (marker k).isPrefixOf t)

/-- The name the file would get if the characters outside `[A-Za-z0-9._-]`
were stripped from the path component. -/
def strippedLogFileName (pathPart timestamp : Str) : Str :=
  pathPart.filter isFriendlyChar ++ "_".toList ++ timestamp ++ ".log".toList

/-- The template with its first placeholder replaced by the text `u` as it
stands. -/
def substituteLiterally (template u : Str) : Str :=
  match splitAtFirst "URL_GOES_HERE".toList template with
  | none => template
  | some (before, after) => before ++ u ++ after

/-- The results of the platform's `new URL` on the URLs used in the examples:
the first three are absolute URLs, any other text used below has no scheme and
is rejected. -/
def exampleNewURL (s : Str) : Option URL :=
  if s = "https://example.com/a.bin".toList then some ⟨"/a.bin".toList⟩
  else if s = "https://example.com/a/b.bin".toList then some ⟨"/a/b.bin".toList⟩
  else if s = "https://example.com/file.140gb?bs=10".toList then some ⟨"/file.140gb".toList⟩
  else if s = "https://example.com/a.bin?sig=x$$y".toList then some ⟨"/a.bin".toList⟩
  else none

/-- The target `https://example.com/a.bin`. -/
def targetA : Target := ⟨"https://example.com/a.bin".toList⟩

/-- The target `https://example.com/a/b.bin`. -/
def targetB : Target := ⟨"https://example.com/a/b.bin".toList⟩

/-- The target `https://example.com/file.140gb?bs=10`. -/
def targetC : Target := ⟨"https://example.com/file.140gb?bs=10".toList⟩

/-- The target `example.com/a.bin`, which `curl` fetches and `new URL`
rejects. -/
def targetNoScheme : Target := ⟨"example.com/a.bin".toList⟩

/-- An environment with a command template and no remote storage. -/
def exampleEnv : Env where
  newURL := exampleNewURL
  mkdirOk := true
  curl_command := some "curl -o /dev/null URL_GOES_HERE -v".toList
  location := some "Paris".toList
  machine_type := none
  s3 := ⟨none, none, none, none, none⟩

/-- The same environment with the variable `curl_command` unset. -/
def exampleEnvNoTemplate : Env := { exampleEnv with curl_command := none }

/-- A probe that exits with code 0 after an `x-cache` header and the speed. -/
def exampleSuccess : Scenario where
  curl := .closed [(.stderr, "< x-cache: HIT\n".toList), (.stdout, "12345.0\n".toList)] (some 0)
  isoNow := "2025-11-13T15:00:00.000Z".toList
  writeFileOk := true
  sendOk := true
  postOk := true

/-- A probe that exits with code 7. -/
def exampleExit7 : Scenario where
  curl := .closed [(.stderr, "* connect failed\n".toList)] (some 7)
  isoNow := "2025-11-13T15:00:00.000Z".toList
  writeFileOk := true
  sendOk := true
  postOk := true

/-- The probe of a scenario succeeds: the process closes with exit code 0. -/
def probeSucceeds (w : Scenario) : Bool :=
  match w.curl with
  | .closed _ (some 0) => true
  | _ => false

/-- The argument lists of the `curl` processes spawned, in order. -/
def probesAttempted (events : List Event) : List (List Str) :=
  events.filterMap (fun e => match e with
    | .spawn _ args => some args
    | _ => none)

/-- The number of local writes among the events. -/
def writeCount (events : List Event) : Nat :=
  events.countP (fun e => match e with
    | .writeFile _ _ => true
    | _ => false)

/-- The `PutObjectCommand` sent by `uploadToS3`, if any. -/
def sendEvents (c : S3Config) (logContent fileKey : Str) : List Event :=
  if s3Configured c && logContent != [] then
    [.s3Send c.S3_BUCKET_NAME fileKey logContent "text/plain".toList]
  else []

end CurlSpeedTester

namespace CurlSpeedTester

/-! ## Facts about the string primitives -/

theorem replace_angle_cons_of_ne (c : Char) (s : Str) (hc : c ≠ '<') :
    replace (c :: s) "< ".toList [] = c :: replace s "< ".toList [] := by
  have h1 : ("< ".toList).isPrefixOf (c :: s) = false := by
    have : "< ".toList = ['<', ' '] := rfl
    rw [this]
    simp [List.isPrefixOf, Ne.symm hc]
  unfold replace
  simp only [splitAtFirst, h1]
  cases h : splitAtFirst "< ".toList s with
  | none => simp
  | some r => simp [getSubstitution]

theorem replace_angle_prefix (s : Str) :
    replace ('<' :: ' ' :: s) "< ".toList [] = s := by
  have h1 : ("< ".toList).isPrefixOf ('<' :: ' ' :: s) = true := by
    have : "< ".toList = ['<', ' '] := rfl
    rw [this]
    simp [List.isPrefixOf]
  unfold replace
  simp only [splitAtFirst, h1]
  simp [getSubstitution]

theorem toLowerCase_append (a b : Str) :
    toLowerCase (a ++ b) = toLowerCase a ++ toLowerCase b := by
  simp [toLowerCase]

theorem toLowerCase_length (a : Str) : (toLowerCase a).length = a.length := by
  simp [toLowerCase]

/-- A line made of the marker `date:` in any letter case followed by `v` is
read as the date `v`, trimmed. -/
theorem parseHeader_bare_date (m v : Str) (hm : toLowerCase m = "date:".toList) :
    parseHeader (m ++ v) = some ⟨.date, trim v⟩ := by
  have hlen : m.length = 5 := by
    have := toLowerCase_length m
    rw [hm] at this
    simpa using this.symm
  have hl : lowerLine (m ++ v)
      = 'd' :: 'a' :: 't' :: 'e' :: ':' :: replace (toLowerCase v) "< ".toList [] := by
    unfold lowerLine
    rw [toLowerCase_append, hm]
    show replace ('d' :: 'a' :: 't' :: 'e' :: ':' :: toLowerCase v) _ _ = _
    rw [replace_angle_cons_of_ne _ _ (by decide), replace_angle_cons_of_ne _ _ (by decide),
      replace_angle_cons_of_ne _ _ (by decide), replace_angle_cons_of_ne _ _ (by decide),
      replace_angle_cons_of_ne _ _ (by decide)]
  have hd : (m ++ v).drop 5 = v := by
    rw [← hlen]
    simp
  have e1 : "x-served-by:".toList = 'x' :: "-served-by:".toList := rfl
  have e2 : "x-cache:".toList = 'x' :: "-cache:".toList := rfl
  have e3 : "date:".toList = ['d', 'a', 't', 'e', ':'] := rfl
  unfold parseHeader
  rw [hl, hd]
  simp [startsWith, e1, e2, e3, List.isPrefixOf]

/-- A line made of the marker `x-served-by:` in any letter case followed by
one character and `v` is read as the served-by value `v`, trimmed. -/
theorem parseHeader_bare_xServedBy (m v : Str) (c : Char)
    (hm : toLowerCase m = "x-served-by:".toList) :
    parseHeader (m ++ c :: v) = some ⟨.xServedBy, trim v⟩ := by
  have hlen : m.length = 12 := by
    have := toLowerCase_length m
    rw [hm] at this
    simpa using this.symm
  have hl : lowerLine (m ++ c :: v)
      = 'x' :: '-' :: 's' :: 'e' :: 'r' :: 'v' :: 'e' :: 'd' :: '-' :: 'b' :: 'y' :: ':' ::
          replace (toLowerCase (c :: v)) "< ".toList [] := by
    unfold lowerLine
    rw [toLowerCase_append, hm]
    show replace ('x' :: '-' :: 's' :: 'e' :: 'r' :: 'v' :: 'e' :: 'd' :: '-' :: 'b' :: 'y'
      :: ':' :: toLowerCase (c :: v)) _ _ = _
    iterate 12 rw [replace_angle_cons_of_ne _ _ (by decide)]
  have hd : (m ++ c :: v).drop 13 = v := by
    have : (m ++ c :: v) = (m ++ [c]) ++ v := by simp
    rw [this]
    have h13 : (m ++ [c]).length = 13 := by simp [hlen]
    rw [← h13]
    simp
  have e1 : "x-served-by:".toList
      = ['x', '-', 's', 'e', 'r', 'v', 'e', 'd', '-', 'b', 'y', ':'] := rfl
  unfold parseHeader
  rw [hl, hd]
  simp [startsWith, e1, List.isPrefixOf]

/-- A line made of `< `, the marker `x-cache:` in any letter case and `v` is
read as the cache value `v`, trimmed. -/
theorem parseHeader_verbose_xCache (m v : Str) (hm : toLowerCase m = "x-cache:".toList) :
    parseHeader ('<' :: ' ' :: (m ++ v)) = some ⟨.xCache, trim v⟩ := by
  have hlen : m.length = 8 := by
    have := toLowerCase_length m
    rw [hm] at this
    simpa using this.symm
  have hl : lowerLine ('<' :: ' ' :: (m ++ v))
      = 'x' :: '-' :: 'c' :: 'a' :: 'c' :: 'h' :: 'e' :: ':' :: toLowerCase v := by
    unfold lowerLine
    have : toLowerCase ('<' :: ' ' :: (m ++ v)) = '<' :: ' ' :: toLowerCase (m ++ v) := by
      simp [toLowerCase, toLowerChar]
    rw [this, replace_angle_prefix, toLowerCase_append, hm]
    rfl
  have hd : ('<' :: ' ' :: (m ++ v)).drop 10 = v := by
    show (m ++ v).drop 8 = v
    rw [← hlen]
    simp
  have e1 : "x-served-by:".toList
      = ['x', '-', 's', 'e', 'r', 'v', 'e', 'd', '-', 'b', 'y', ':'] := rfl
  have e2 : "x-cache:".toList = ['x', '-', 'c', 'a', 'c', 'h', 'e', ':'] := rfl
  unfold parseHeader
  rw [hl, hd]
  simp [startsWith, e1, e2, List.isPrefixOf]

/-- C1 (the code at the failing inputs): on curl's verbose form of a `date`
line `parseHeader` returns the text from the sixth character on, on the verbose
form of an `x-served-by` line it returns the value with the colon in front, and
on the bare form of an `x-cache` line it drops the first character of the
value. -/
theorem parseHeader_fixed_offsets :
    parseHeader "< date: Mon, 01 Jan 2024 00:00:00 GMT".toList
        = some ⟨.date, "e: Mon, 01 Jan 2024 00:00:00 GMT".toList⟩ ∧
    parseHeader "< x-served-by: cache-par1".toList
        = some ⟨.xServedBy, ": cache-par1".toList⟩ ∧
    parseHeader "x-cache: HIT".toList = some ⟨.xCache, "IT".toList⟩ := by
  decide

/-! ## The log scan -/

theorem parseHeader_key_matches {line : Str} {h : Header} (hp : parseHeader line = some h) :
    startsWith (lowerLine line) (marker h.key) = true := by
  unfold parseHeader at hp
  split_ifs at hp with h1 h2 h3
  · cases hp
    simpa [marker] using h1
  · cases hp
    simpa [marker] using h2
  · cases hp
    simpa [marker] using h3

theorem scanLine_get_of_not_match (r : Results) (line : Str) (k : HeaderKey)
    (hk : startsWith (lowerLine line) (marker k) = false) :
    (scanLine r line).get k = r.get k := by
  unfold scanLine
  cases hp : parseHeader line with
  | none => rfl
  | some h =>
    have hm := parseHeader_key_matches hp
    have hne : h.key ≠ k := by
      intro e
      rw [e, hk] at hm
      exact Bool.noConfusion hm
    cases hkey : h.key <;> cases k <;> simp_all [Results.set, Results.get]

theorem foldl_scanLine_get_of_not_match (lines : List Str) (r : Results) (k : HeaderKey)
    (hk : ∀ l ∈ lines, startsWith (lowerLine l) (marker k) = false) :
    (lines.foldl scanLine r).get k = r.get k := by
  induction lines generalizing r with
  | nil => rfl
  | cons l ls ih =>
    simp only [List.foldl_cons]
    rw [ih _ (fun x hx => hk x (List.mem_cons_of_mem _ hx))]
    exact scanLine_get_of_not_match r l k (hk l (List.mem_cons_self _ _))

/-- Last match wins: when the lines of the trace are `pre`, a line `l1` read as
a date with value `v1`, `mid`, a line `l2` read as a date with value `v2`, and
`post`, where `v1` and `v2` differ and no line of `post` is read as a date, the
returned `date` is `v2`, the value `parseHeader` reads from `l2`, and not
`v1`. -/
theorem parseLog_last_date_wins (speed trace : Str) (pre mid post : List Str)
    (l1 l2 v1 v2 : Str)
    (hlines : split (Char.ofNat 10) trace = pre ++ l1 :: (mid ++ l2 :: post))
    (_h1 : parseHeader l1 = some ⟨.date, v1⟩)
    (h2 : parseHeader l2 = some ⟨.date, v2⟩)
    (hne : v1 ≠ v2)
    (hpost : ∀ l ∈ post, startsWith (lowerLine l) (marker .date) = false) :
    (parseLog speed trace).date = v2 ∧ (parseLog speed trace).date ≠ v1 := by
  have key : (parseLog speed trace).date = v2 := by
    unfold parseLog
    rw [hlines, List.foldl_append, List.foldl_cons, List.foldl_append, List.foldl_cons]
    have := foldl_scanLine_get_of_not_match post
      (scanLine (List.foldl scanLine (scanLine (List.foldl scanLine
        { speed := trim speed, xServedBy := [], xCache := [], date := [], fullLog := trace }
        pre) l1) mid) l2) .date hpost
    simp only [Results.get] at this
    rw [this]
    simp [scanLine, h2, Results.set]
  exact ⟨key, by rw [key]; exact fun e => hne e.symm⟩

theorem parseLog_last_date_wins_witness :
    (parseLog "1.0".toList "date: A\n< x-cache: HIT\ndate: B\n".toList).date = "B".toList ∧
    (parseLog "1.0".toList "date: A\n< x-cache: HIT\ndate: B\n".toList).date ≠ "A".toList :=
  parseLog_last_date_wins "1.0".toList "date: A\n< x-cache: HIT\ndate: B\n".toList
    [] ["< x-cache: HIT".toList] [[]] "date: A".toList "date: B".toList "A".toList "B".toList
    (by decide) (by decide) (by decide) (by decide) (by decide)

/-- C2 (the code at the failing input): for a trace with the two date lines
curl prints, `< date: Mon, 01 Jan 2024 00:00:00 GMT` and then
`< date: Tue, 02 Jan 2024 00:00:00 GMT`, the returned `date` comes from the
second line but is `e: Tue, 02 Jan 2024 00:00:00 GMT`, not the value
`Tue, 02 Jan 2024 00:00:00 GMT` of that line. -/
theorem parseLog_verbose_dates :
    (parseLog "12345.0\n".toList
        ("< date: Mon, 01 Jan 2024 00:00:00 GMT\r\n".toList
          ++ "< date: Tue, 02 Jan 2024 00:00:00 GMT\r\n12345.0\n".toList)).date
      = "e: Tue, 02 Jan 2024 00:00:00 GMT".toList ∧
    (parseLog "12345.0\n".toList
        ("< date: Mon, 01 Jan 2024 00:00:00 GMT\r\n".toList
          ++ "< date: Tue, 02 Jan 2024 00:00:00 GMT\r\n12345.0\n".toList)).date
      ≠ "Tue, 02 Jan 2024 00:00:00 GMT".toList := by
  decide

theorem markerOccursStripped_of_matches (k : HeaderKey) (line : Str)
    (h : startsWith (lowerLine line) (marker k) = true) :
    markerOccursStripped k line = true := by
  unfold markerOccursStripped
  rw [List.any_eq_true]
  exact ⟨lowerLine line, (List.mem_tails _ _).mpr (List.suffix_refl _), h⟩

/-- C8 (the claim as stated fails): in the one-line trace `da< te: x` the
marker `date:` does not occur, yet the returned `date` is `e: x`. -/
theorem parseLog_date_without_marker :
    split (Char.ofNat 10) "da< te: x".toList = ["da< te: x".toList] ∧
    (∀ l ∈ split (Char.ofNat 10) "da< te: x".toList, markerOccurs .date l = false) ∧
    (parseLog [] "da< te: x".toList).get .date = "e: x".toList ∧
    (parseLog [] "da< te: x".toList).get .date ≠ [] := by
  decide

/-- C8 (amended): for every trace the `close` handler with exit code 0
resolves with the scanned results; and each field whose marker does not occur
in any line of the trace, once the first `< ` of the line is removed, is the
empty string. -/
theorem parseLog_absent_marker_empty :
    (∀ (url : Target) (chunks : List (Stream × Str)),
      (executeCurl url (.closed chunks (some 0))).result
        = .ok (parseLog (speedOf chunks) (fullLogOf chunks))) ∧
    (∀ (speed trace : Str) (k : HeaderKey),
      (∀ l ∈ split (Char.ofNat 10) trace, markerOccursStripped k l = false) →
      (parseLog speed trace).get k = []) := by
  refine ⟨fun _ _ => rfl, ?_⟩
  intro speed trace k habsent
  have hno : ∀ l ∈ split (Char.ofNat 10) trace,
      startsWith (lowerLine l) (marker k) = false := by
    intro l hl
    by_contra hc
    have := markerOccursStripped_of_matches k l (by simpa using hc)
    rw [habsent l hl] at this
    exact Bool.noConfusion this
  unfold parseLog
  rw [foldl_scanLine_get_of_not_match _ _ k hno]
  cases k <;> rfl

theorem parseLog_absent_marker_empty_witness :
    (∀ l ∈ split (Char.ofNat 10)
        "\r  0     0    0     0< HTTP/1.1 200 OK\r\n< x-cache: HIT\r\n12345.0\n".toList,
      markerOccursStripped .date l = false) ∧
    (parseLog "12345.0\n".toList
      "\r  0     0    0     0< HTTP/1.1 200 OK\r\n< x-cache: HIT\r\n12345.0\n".toList).get
        .date = [] :=
  ⟨by decide,
    parseLog_absent_marker_empty.2 "12345.0\n".toList
      "\r  0     0    0     0< HTTP/1.1 200 OK\r\n< x-cache: HIT\r\n12345.0\n".toList .date
      (by decide)⟩

/-! ## The target list -/

theorem trim_eq_nil_iff (s : Str) : trim s = [] ↔ isBlank s = true := by
  unfold trim isBlank
  rw [List.rdropWhile_eq_nil_iff, List.all_eq_true]
  constructor
  · intro h
    by_cases hd : s.dropWhile isWhiteSpace = []
    · exact List.dropWhile_eq_nil_iff.mp hd
    · have h2 := List.head_dropWhile_not isWhiteSpace s hd
      have h3 := h _ (List.head_mem hd)
      rw [h3] at h2
      exact absurd h2 (by simp)
  · intro h
    rw [List.dropWhile_eq_nil_iff.mpr h]
    intro x hx
    cases hx

theorem split_ne_nil (sep : Char) (s : Str) : split sep s ≠ [] := by
  cases s with
  | nil => simp [split]
  | cons c cs =>
    unfold split
    split_ifs
    · simp
    · split <;> simp

/-- Joining the pieces with the separator gives the text back. -/
theorem intercalate_split (sep : Char) (s : Str) : [sep].intercalate (split sep s) = s := by
  induction s with
  | nil => rfl
  | cons c cs ih =>
    unfold split
    split_ifs with h
    · obtain ⟨l, ls, hl⟩ := List.exists_cons_of_ne_nil (split_ne_nil sep cs)
      rw [hl] at ih ⊢
      rw [h]
      simpa [List.intercalate, List.intersperse] using ih
    · obtain ⟨l, ls, hl⟩ := List.exists_cons_of_ne_nil (split_ne_nil sep cs)
      rw [hl] at ih ⊢
      cases ls with
      | nil => simpa [List.intercalate, List.intersperse] using ih
      | cons m ms => simpa [List.intercalate, List.intersperse] using ih

/-- No piece contains the separator. -/
theorem not_mem_of_mem_split (sep : Char) (s : Str) : ∀ l ∈ split sep s, sep ∉ l := by
  induction s with
  | nil => simp [split]
  | cons c cs ih =>
    unfold split
    split_ifs with h
    · intro l hl
      rcases List.mem_cons.mp hl with rfl | hl
      · simp
      · exact ih l hl
    · obtain ⟨m, ms, hm⟩ := List.exists_cons_of_ne_nil (split_ne_nil sep cs)
      rw [hm] at ih ⊢
      intro l hl
      rcases List.mem_cons.mp hl with rfl | hl
      · intro hmem
        rcases List.mem_cons.mp hmem with e | e
        · exact h e.symm
        · exact ih m (List.mem_cons_self _ _) e
      · exact ih l (List.mem_cons_of_mem _ hl)

theorem trim_isTrimmed (line : Str) : IsTrimmed (trim line) line := by
  refine ⟨line.takeWhile isWhiteSpace, (line.dropWhile isWhiteSpace).rtakeWhile isWhiteSpace,
    ?_, ?_, ?_, ?_, ?_⟩
  · have h1 : (line.dropWhile isWhiteSpace).rdropWhile isWhiteSpace
        ++ (line.dropWhile isWhiteSpace).rtakeWhile isWhiteSpace
        = line.dropWhile isWhiteSpace := by
      simp [List.rdropWhile, List.rtakeWhile, ← List.reverse_append]
    unfold trim
    rw [List.append_assoc, h1, List.takeWhile_append_dropWhile]
  · rw [List.all_eq_true]
    intro x hx
    exact List.mem_takeWhile_imp hx
  · rw [List.all_eq_true]
    intro x hx
    unfold List.rtakeWhile at hx
    exact List.mem_takeWhile_imp (List.mem_reverse.mp hx)
  · intro c hc
    unfold trim at hc
    obtain ⟨r, hr⟩ := List.rdropWhile_prefix isWhiteSpace (l := line.dropWhile isWhiteSpace)
    have hd := List.head?_dropWhile_not isWhiteSpace line
    rw [← hr] at hd
    cases ht : List.rdropWhile isWhiteSpace (List.dropWhile isWhiteSpace line) with
    | nil =>
      rw [ht] at hc
      cases hc
    | cons x xs =>
      rw [ht] at hc hd
      simp only [List.head?_cons, Option.some.injEq] at hc
      subst hc
      simpa using hd
  · intro c hc
    unfold trim at hc
    have hne : List.rdropWhile isWhiteSpace (List.dropWhile isWhiteSpace line) ≠ [] := by
      intro e
      rw [e] at hc
      cases hc
    have := List.rdropWhile_last_not isWhiteSpace _ hne
    rw [List.getLast?_eq_getLast _ hne] at hc
    cases hc
    simpa using this

/-- C10: for every text there is a list of lines, none containing the newline
character, that joined with newline characters is the text, such that the
loaded targets correspond one to one and in order to the lines that are not
blank, the url of each target being its line without the surrounding
whitespace; and no loaded target has an empty url. -/
theorem URLS_TO_TEST_nonblank_lines (fileText : Str) :
    (∃ lines : List Str,
      [Char.ofNat 10].intercalate lines = fileText ∧
      (∀ l ∈ lines, Char.ofNat 10 ∉ l) ∧
      List.Forall₂ (fun (t : Target) (line : Str) => IsTrimmed t.url line)
        (URLS_TO_TEST fileText)
        (lines.filter (fun line => line.any (fun c => !isWhiteSpace c)))) ∧
    (∀ t ∈ URLS_TO_TEST fileText, t.url ≠ []) := by
  have hf : ∀ line : Str,
      (trim line != []) = line.any (fun c => !isWhiteSpace c) := by
    intro line
    by_cases hb : isBlank line = true
    · have h1 := (trim_eq_nil_iff line).mpr hb
      have h2 : line.any (fun c => !isWhiteSpace c) = false := by
        unfold isBlank at hb
        rw [List.all_eq_true] at hb
        rw [List.any_eq_false]
        intro x hx
        simp [hb x hx]
      rw [h1, h2]
      rfl
    · have h1 : trim line ≠ [] := fun e => hb ((trim_eq_nil_iff line).mp e)
      have h2 : line.any (fun c => !isWhiteSpace c) = true := by
        unfold isBlank at hb
        rw [List.all_eq_true] at hb
        push_neg at hb
        obtain ⟨x, hx, hw⟩ := hb
        rw [List.any_eq_true]
        exact ⟨x, hx, by simpa using hw⟩
      rw [h2]
      simpa using h1
  constructor
  · refine ⟨split (Char.ofNat 10) fileText, intercalate_split _ _, not_mem_of_mem_split _ _, ?_⟩
    unfold URLS_TO_TEST
    simp only [hf]
    rw [List.forall₂_map_left_iff, List.forall₂_same]
    intro l _
    exact trim_isTrimmed l
  · intro t ht
    unfold URLS_TO_TEST at ht
    simp only [List.mem_map, List.mem_filter] at ht
    obtain ⟨l, ⟨_, hl⟩, rfl⟩ := ht
    simpa using hl

theorem URLS_TO_TEST_nonblank_lines_witness :
    URLS_TO_TEST "https://example.com/a.bin\n\n  \t\r\n  https://example.com/b.bin \r\n".toList
      = [⟨"https://example.com/a.bin".toList⟩, ⟨"https://example.com/b.bin".toList⟩] ∧
    (∀ t ∈ URLS_TO_TEST
        "https://example.com/a.bin\n\n  \t\r\n  https://example.com/b.bin \r\n".toList,
      t.url ≠ []) :=
  ⟨by decide,
    (URLS_TO_TEST_nonblank_lines
      "https://example.com/a.bin\n\n  \t\r\n  https://example.com/b.bin \r\n".toList).2⟩

/-! ## The remote sink -/

theorem s3Client_none_of_absent (c : S3Config)
    (h : c.S3_BUCKET_NAME = none ∨ c.S3_REGION = none ∨ c.S3_ENDPOINT = none ∨
      c.S3_ACCESS_KEY_ID = none ∨ c.S3_SECRET_ACCESS_KEY = none) :
    s3Client c = none := by
  unfold s3Client s3Configured
  rcases h with h | h | h | h | h <;> simp [h, truthy]

theorem absent_of_absentCount_pos (c : S3Config) (h : 0 < absentCount c) :
    c.S3_BUCKET_NAME = none ∨ c.S3_REGION = none ∨ c.S3_ENDPOINT = none ∨
      c.S3_ACCESS_KEY_ID = none ∨ c.S3_SECRET_ACCESS_KEY = none := by
  by_contra hcon
  simp only [not_or] at hcon
  obtain ⟨h1, h2, h3, h4, h5⟩ := hcon
  obtain ⟨a, ha⟩ := Option.ne_none_iff_exists.mp h1
  obtain ⟨b, hb⟩ := Option.ne_none_iff_exists.mp h2
  obtain ⟨d, hd⟩ := Option.ne_none_iff_exists.mp h3
  obtain ⟨e, he⟩ := Option.ne_none_iff_exists.mp h4
  obtain ⟨f, hf⟩ := Option.ne_none_iff_exists.mp h5
  simp [absentCount, ← ha, ← hb, ← hd, ← he, ← hf] at h

/-- C9: when exactly one of the five remote-storage values is unset,
`uploadToS3` returns normally and sends nothing: the only event is its own
entry. -/
theorem uploadToS3_inert_one_absent (c : S3Config) (sendOk : Bool) (logContent fileKey : Str)
    (h : absentCount c = 1) :
    (uploadToS3 c sendOk logContent fileKey).events = [.uploadToS3 logContent fileKey] ∧
    (uploadToS3 c sendOk logContent fileKey).result = .ok () := by
  have hc := s3Client_none_of_absent c (absent_of_absentCount_pos c (by omega))
  unfold uploadToS3
  rw [hc]
  exact ⟨rfl, rfl⟩

theorem uploadToS3_inert_one_absent_witness :
    (uploadToS3 ⟨some "b".toList, none, some "e".toList, some "k".toList, some "s".toList⟩
        true "log".toList "a.log".toList).events
      = [.uploadToS3 "log".toList "a.log".toList] ∧
    (uploadToS3 ⟨some "b".toList, none, some "e".toList, some "k".toList, some "s".toList⟩
        true "log".toList "a.log".toList).result = .ok () :=
  uploadToS3_inert_one_absent
    ⟨some "b".toList, none, some "e".toList, some "k".toList, some "s".toList⟩
    true "log".toList "a.log".toList (by decide)

/-! ## The file name -/

/-- C3 (the claim as stated fails): for the path `a/b.bin` the slash is
replaced by `_`, not stripped. -/
theorem createLogFileName_replaces_not_strips :
    createLogFileName exampleNewURL "2025-11-13T15:00:00.000Z".toList
        "https://example.com/a/b.bin".toList
      = .ok "a_b.bin_2025-11-13T15-00-00.log".toList ∧
    strippedLogFileName "a/b.bin".toList "2025-11-13T15-00-00".toList
      = "ab.bin_2025-11-13T15-00-00.log".toList ∧
    createLogFileName exampleNewURL "2025-11-13T15:00:00.000Z".toList
        "https://example.com/a/b.bin".toList
      ≠ .ok (strippedLogFileName "a/b.bin".toList "2025-11-13T15-00-00".toList) := by
  decide

/-- C3 (amended): for a URL the platform parses, the name is a function of
the URL and the timestamp; it is a friendly part, `_`, the first 19 characters
of the ISO timestamp with `:` replaced by `-`, and `.log`. The friendly part is
`download` when the path without its leading slash is empty; otherwise it has
the length of that path, each character inside `[A-Za-z0-9._-]` kept and each
other character replaced by `_`. -/
theorem createLogFileName_spec (newURL : Str → Option URL) (isoNow urlStr : Str) (u : URL)
    (hu : newURL urlStr = some u) :
    (∀ isoNow2 urlStr2, isoNow2 = isoNow → urlStr2 = urlStr →
      createLogFileName newURL isoNow2 urlStr2 = createLogFileName newURL isoNow urlStr) ∧
    ∃ friendly : List Char,
      createLogFileName newURL isoNow urlStr
        = .ok (friendly ++ "_".toList ++
            (isoNow.map (fun c => if c = ':' then '-' else c)).take 19 ++ ".log".toList) ∧
      (u.pathname.drop 1 = [] → friendly = "download".toList) ∧
      (u.pathname.drop 1 ≠ [] →
        friendly.length = (u.pathname.drop 1).length ∧
        ∀ (i : Nat) (c : Char), (u.pathname.drop 1)[i]? = some c →
          friendly[i]? = some (if isFriendlyChar c then c else '_')) ∧
      (∀ c ∈ friendly, isFriendlyChar c = true) := by
  refine ⟨fun _ _ h1 h2 => by rw [h1, h2], ?_⟩
  by_cases hp : u.pathname.drop 1 = []
  · refine ⟨"download".toList, ?_, fun _ => rfl, fun h => absurd hp h, by decide⟩
    simp [createLogFileName, hu, hp]
  · refine ⟨(u.pathname.drop 1).map (fun c => if isFriendlyChar c then c else '_'),
      ?_, fun h => absurd h hp, fun _ => ⟨by simp, ?_⟩, ?_⟩
    · have : ¬ (List.map (fun c => if isFriendlyChar c then c else '_')
          (List.drop 1 u.pathname) = []) :=
        fun h => hp (List.map_eq_nil_iff.mp h)
      simp only [createLogFileName, hu, this, if_false]
    · intro i c hc
      rw [List.getElem?_map, hc]
      rfl
    · intro c hc
      simp only [List.mem_map] at hc
      obtain ⟨d, _, rfl⟩ := hc
      by_cases hd : isFriendlyChar d = true
      · simp [hd]
      · rw [if_neg hd]
        decide

theorem createLogFileName_spec_witness :
    exampleNewURL "https://example.com/file.140gb?bs=10".toList = some ⟨"/file.140gb".toList⟩ ∧
    createLogFileName exampleNewURL "2025-11-13T15:00:00.000Z".toList
        "https://example.com/file.140gb?bs=10".toList
      = .ok "file.140gb_2025-11-13T15-00-00.log".toList ∧
    ∃ friendly : Str,
      createLogFileName exampleNewURL "2025-11-13T15:00:00.000Z".toList
          "https://example.com/file.140gb?bs=10".toList
        = .ok (friendly ++ "_".toList ++
            ("2025-11-13T15:00:00.000Z".toList.map (fun c => if c = ':' then '-' else c)).take 19
            ++ ".log".toList) ∧
      (∀ c ∈ friendly, isFriendlyChar c = true) := by
  have h := (createLogFileName_spec exampleNewURL "2025-11-13T15:00:00.000Z".toList
    "https://example.com/file.140gb?bs=10".toList ⟨"/file.140gb".toList⟩ (by decide)).2
  obtain ⟨friendly, h1, _, _, h4⟩ := h
  exact ⟨by decide, by decide, friendly, h1, h4⟩

/-! ## The command field of the report -/

theorem getSubstitution_of_no_dollar (matched before after u : Str) (hu : '$' ∉ u) :
    getSubstitution matched before after u = u := by
  induction u with
  | nil => rfl
  | cons c cs ih =>
    have hc : c ≠ '$' := fun e => hu (e ▸ List.mem_cons_self _ _)
    have hcs : '$' ∉ cs := fun h => hu (List.mem_cons_of_mem _ h)
    conv_lhs => rw [getSubstitution.eq_def]
    simp only [if_neg hc]
    rw [ih hcs]

/-- A URL without `$` is substituted as it stands. -/
theorem curlCommandField_of_no_dollar (t u : Str) (hu : '$' ∉ u) :
    curlCommandField (some t) u
      = .ok (if substituteLiterally t u = [] then "N/A".toList else substituteLiterally t u) := by
  have : replace t "URL_GOES_HERE".toList u = substituteLiterally t u := by
    unfold replace substituteLiterally
    cases h : splitAtFirst "URL_GOES_HERE".toList t with
    | none => rfl
    | some r =>
      obtain ⟨b, a⟩ := r
      simp [getSubstitution_of_no_dollar _ _ _ _ hu]
  unfold curlCommandField
  simp only [this]

/-- C7 (the code at the failing input): for the URL
`https://example.com/a.bin?sig=x$$y` the field `curl_command` of the report
holds `sig=x$y`, one `$` short of the URL's text. -/
theorem reportRecord_dollar_url :
    (reportRecord exampleEnv ⟨"https://example.com/a.bin?sig=x$$y".toList⟩
        (parseLog [] []) "a.bin.log".toList).map (fun r => r.curl_command)
      = .ok "curl -o /dev/null https://example.com/a.bin?sig=x$y -v".toList ∧
    substituteLiterally "curl -o /dev/null URL_GOES_HERE -v".toList
        "https://example.com/a.bin?sig=x$$y".toList
      = "curl -o /dev/null https://example.com/a.bin?sig=x$$y -v".toList := by
  decide

/-! ## The orchestrator -/

theorem tryCatch_pure_result (body : Eff Unit) :
    (tryCatch body (fun _ => (pure () : Eff Unit))).result = .ok () := by
  show (Eff.tryCatch body _).result = _
  unfold Eff.tryCatch
  cases body.result <;> rfl

theorem processTarget_result (env : Env) (url : Target) (w : Scenario) :
    (processTarget env url w).result = .ok () :=
  tryCatch_pure_result _

theorem runLoop_result (env : Env) (runs : List (Target × Scenario)) :
    (runLoop env runs).result = .ok () := by
  induction runs with
  | nil => rfl
  | cons r rest ih =>
    obtain ⟨url, w⟩ := r
    show (Eff.bind (processTarget env url w) (fun _ => runLoop env rest)).result = _
    unfold Eff.bind
    rw [processTarget_result]
    exact ih

theorem runLoop_events_cons (env : Env) (url : Target) (w : Scenario)
    (rest : List (Target × Scenario)) :
    (runLoop env ((url, w) :: rest)).events
      = (processTarget env url w).events ++ (runLoop env rest).events := by
  show (Eff.bind (processTarget env url w) (fun _ => runLoop env rest)).events = _
  unfold Eff.bind
  rw [processTarget_result]

theorem runLoop_events_append (env : Env) (a b : List (Target × Scenario)) :
    (runLoop env (a ++ b)).events = (runLoop env a).events ++ (runLoop env b).events := by
  induction a with
  | nil => rfl
  | cons r rest ih =>
    obtain ⟨url, w⟩ := r
    rw [List.cons_append, runLoop_events_cons, runLoop_events_cons, ih, List.append_assoc]

theorem runAllTests_events (env : Env) (runs : List (Target × Scenario))
    (hmk : env.mkdirOk = true) :
    (runAllTests env runs).events = Event.mkdir LOG_DIRECTORY :: (runLoop env runs).events := by
  unfold runAllTests ensureLogDirectory
  rw [hmk]
  rfl

theorem runAllTests_result (env : Env) (runs : List (Target × Scenario)) :
    (runAllTests env runs).result = .ok () := by
  unfold runAllTests ensureLogDirectory
  cases env.mkdirOk
  · rfl
  · exact runLoop_result env runs

theorem runAllTests_events_split (env : Env) (pre post : List (Target × Scenario))
    (url : Target) (w : Scenario) (hmk : env.mkdirOk = true) :
    (runAllTests env (pre ++ (url, w) :: post)).events
      = (runAllTests env pre).events ++ (processTarget env url w).events
          ++ (runLoop env post).events := by
  rw [runAllTests_events _ _ hmk, runAllTests_events _ _ hmk, runLoop_events_append,
    runLoop_events_cons]
  simp

theorem Eff.bind_ok {α β : Type} {m : Eff α} {a : α} (h : m.result = .ok a)
    (f : α → Eff β) : Eff.bind m f = ⟨m.events ++ (f a).events, (f a).result⟩ := by
  unfold Eff.bind
  rw [h]

theorem Eff.bind_error {α β : Type} {m : Eff α} {e : Err} (h : m.result = .error e)
    (f : α → Eff β) : Eff.bind m f = ⟨m.events, .error e⟩ := by
  unfold Eff.bind
  rw [h]

theorem Eff.tryCatch_ok {α : Type} {m : Eff α} {a : α} (h : m.result = .ok a)
    (f : Err → Eff α) : Eff.tryCatch m f = ⟨m.events, .ok a⟩ := by
  unfold Eff.tryCatch
  rw [h]

theorem Eff.tryCatch_error {α : Type} {m : Eff α} {e : Err} (h : m.result = .error e)
    (f : Err → Eff α) :
    Eff.tryCatch m f = ⟨m.events ++ (f e).events, (f e).result⟩ := by
  unfold Eff.tryCatch
  rw [h]

theorem executeCurl_events (url : Target) (run : CurlRun) :
    (executeCurl url run).events = [.spawn "curl".toList (curlArgs url)] := by
  unfold executeCurl
  cases run with
  | failedToStart => rfl
  | closed chunks code =>
    by_cases hcode : code = some 0
    · subst hcode
      rfl
    · show (Eff.bind _ (fun _ => if code ≠ some 0 then _ else _)).events = _
      rw [if_pos hcode]
      rfl

theorem executeCurl_result_closed (url : Target) (chunks : List (Stream × Str))
    (code : Option Nat) (hcode : code ≠ some 0) :
    (executeCurl url (.closed chunks code)).result
      = .error (.curlExit code (fullLogOf chunks)) := by
  unfold executeCurl
  show (Eff.bind _ (fun _ => if code ≠ some 0 then _ else _)).result = _
  rw [if_pos hcode]
  rfl

theorem executeCurl_result_of_not_succeeds (url : Target) (w : Scenario)
    (h : probeSucceeds w = false) : ∃ e, (executeCurl url w.curl).result = .error e := by
  unfold probeSucceeds at h
  cases hc : w.curl with
  | failedToStart => exact ⟨_, rfl⟩
  | closed chunks code =>
    rw [hc] at h
    have hcode : code ≠ some 0 := by
      rintro rfl
      simp at h
    exact ⟨_, executeCurl_result_closed url chunks code hcode⟩

theorem processTarget_eq (env : Env) (url : Target) (w : Scenario) :
    processTarget env url w
      = Eff.tryCatch
          (Eff.bind (executeCurl url w.curl) (fun results =>
            Eff.bind (liftExcept (createLogFileName env.newURL w.isoNow url.url))
              (fun logFileName =>
                Eff.bind (saveLocally w (logFilePathOf logFileName) results) (fun _ =>
                  Eff.bind (uploadLog env w results logFileName) (fun _ =>
                    postReport env url w results logFileName)))))
          (fun _ => pure ()) :=
  rfl

theorem processTarget_events_of_not_succeeds (env : Env) (url : Target) (w : Scenario)
    (h : probeSucceeds w = false) :
    (processTarget env url w).events = [.spawn "curl".toList (curlArgs url)] := by
  obtain ⟨e, he⟩ := executeCurl_result_of_not_succeeds url w h
  rw [processTarget_eq, Eff.tryCatch_error (e := e) (by rw [Eff.bind_error he]),
    Eff.bind_error he, executeCurl_events]
  rfl

theorem saveLocally_eq (w : Scenario) (logFilePath : Str) (results : Results) :
    (saveLocally w logFilePath results).events = [.writeFile logFilePath results.fullLog] ∧
    (saveLocally w logFilePath results).result = .ok () := by
  unfold saveLocally
  cases w.writeFileOk <;> exact ⟨rfl, rfl⟩

theorem uploadToS3_events (c : S3Config) (sendOk : Bool) (logContent fileKey : Str) :
    (uploadToS3 c sendOk logContent fileKey).events
      = .uploadToS3 logContent fileKey :: sendEvents c logContent fileKey := by
  unfold uploadToS3 sendEvents s3Client
  by_cases hs : s3Configured c = true
  · by_cases hl : logContent = []
    · simp only [hs, hl]
      rfl
    · simp only [hs, hl]
      cases sendOk <;> simp [hl] <;> rfl
  · simp only [hs]
    rfl

theorem tryCatch_pure_events (body : Eff Unit) :
    (Eff.tryCatch body (fun _ => (pure () : Eff Unit))).events = body.events := by
  unfold Eff.tryCatch
  cases body.result with
  | ok a => rfl
  | error e => exact List.append_nil _

theorem uploadLog_eq (env : Env) (w : Scenario) (results : Results) (logFileName : Str) :
    (uploadLog env w results logFileName).events
        = .uploadToS3 results.fullLog logFileName
            :: sendEvents env.s3 results.fullLog logFileName ∧
    (uploadLog env w results logFileName).result = .ok () := by
  constructor
  · rw [← uploadToS3_events env.s3 w.sendOk]
    exact tryCatch_pure_events _
  · exact tryCatch_pure_result _

theorem postResultsToLogServer_eq (postOk : Bool) (data : ReportRecord) :
    (postResultsToLogServer postOk data).events = [.axiosPost LOG_SERVER_ENDPOINT data] ∧
    (postResultsToLogServer postOk data).result = .ok () := by
  unfold postResultsToLogServer
  cases postOk <;> exact ⟨rfl, rfl⟩

/-- The post events of one iteration: one request when the argument object
could be built, none when building it threw. -/
theorem postReport_eq (env : Env) (url : Target) (w : Scenario) (results : Results)
    (logFileName : Str) :
    (postReport env url w results logFileName).events
        = (match reportRecord env url results logFileName with
            | .ok data => [.axiosPost LOG_SERVER_ENDPOINT data]
            | .error _ => []) ∧
    (postReport env url w results logFileName).result = .ok () := by
  refine ⟨?_, tryCatch_pure_result _⟩
  show (Eff.tryCatch (Eff.bind (liftExcept (reportRecord env url results logFileName))
    (fun data => postResultsToLogServer w.postOk data)) (fun _ => pure ())).events = _
  rw [tryCatch_pure_events]
  cases h : reportRecord env url results logFileName with
  | error e =>
    rw [Eff.bind_error (e := e) rfl]
    rfl
  | ok data =>
    rw [Eff.bind_ok (a := data) rfl]
    simp [(postResultsToLogServer_eq w.postOk data).1, liftExcept]

theorem foldl_scanLine_fullLog (lines : List Str) (r : Results) :
    (lines.foldl scanLine r).fullLog = r.fullLog := by
  induction lines generalizing r with
  | nil => rfl
  | cons l ls ih =>
    rw [List.foldl_cons, ih]
    unfold scanLine
    cases parseHeader l with
    | none => rfl
    | some h => cases hk : h.key <;> simp [Results.set, hk]

theorem parseLog_fullLog (speed fullLog : Str) : (parseLog speed fullLog).fullLog = fullLog :=
  foldl_scanLine_fullLog _ _

theorem executeCurl_result_ok (url : Target) (chunks : List (Stream × Str)) :
    (executeCurl url (.closed chunks (some 0))).result
      = .ok (parseLog (speedOf chunks) (fullLogOf chunks)) :=
  rfl

theorem processTarget_events_of_invalid_url (env : Env) (url : Target) (w : Scenario)
    (chunks : List (Stream × Str)) (hcurl : w.curl = .closed chunks (some 0))
    (hurl : env.newURL url.url = none) :
    (processTarget env url w).events = [.spawn "curl".toList (curlArgs url)] := by
  have hname : (liftExcept (createLogFileName env.newURL w.isoNow url.url)).result
      = .error (.invalidURL url.url) := by
    simp [liftExcept, createLogFileName, hurl]
  have hbody : (Eff.bind (executeCurl url (.closed chunks (some 0))) (fun results =>
      Eff.bind (liftExcept (createLogFileName env.newURL w.isoNow url.url))
        (fun logFileName =>
          Eff.bind (saveLocally w (logFilePathOf logFileName) results) (fun _ =>
            Eff.bind (uploadLog env w results logFileName) (fun _ =>
              postReport env url w results logFileName)))))
      = ⟨[.spawn "curl".toList (curlArgs url)], .error (.invalidURL url.url)⟩ := by
    rw [Eff.bind_ok (executeCurl_result_ok url chunks), Eff.bind_error hname,
      executeCurl_events]
    simp [liftExcept]
  rw [processTarget_eq, hcurl, hbody, Eff.tryCatch_error (e := .invalidURL url.url) rfl]
  rfl

theorem processTarget_events_of_success (env : Env) (url : Target) (w : Scenario)
    (chunks : List (Stream × Str)) (logFileName : Str)
    (hcurl : w.curl = .closed chunks (some 0))
    (hname : createLogFileName env.newURL w.isoNow url.url = .ok logFileName) :
    (processTarget env url w).events
      = [.spawn "curl".toList (curlArgs url),
          .writeFile (logFilePathOf logFileName) (fullLogOf chunks),
          .uploadToS3 (fullLogOf chunks) logFileName]
        ++ sendEvents env.s3 (fullLogOf chunks) logFileName
        ++ (match reportRecord env url (parseLog (speedOf chunks) (fullLogOf chunks))
              logFileName with
            | .ok data => [.axiosPost LOG_SERVER_ENDPOINT data]
            | .error _ => []) := by
  have hn : (liftExcept (createLogFileName env.newURL w.isoNow url.url)).result
      = .ok logFileName := by
    rw [hname]
    rfl
  have hbody : (Eff.bind (executeCurl url (.closed chunks (some 0))) (fun results =>
      Eff.bind (liftExcept (createLogFileName env.newURL w.isoNow url.url))
        (fun logFileName =>
          Eff.bind (saveLocally w (logFilePathOf logFileName) results) (fun _ =>
            Eff.bind (uploadLog env w results logFileName) (fun _ =>
              postReport env url w results logFileName)))))
      = ⟨[.spawn "curl".toList (curlArgs url),
          .writeFile (logFilePathOf logFileName) (fullLogOf chunks),
          .uploadToS3 (fullLogOf chunks) logFileName]
        ++ sendEvents env.s3 (fullLogOf chunks) logFileName
        ++ (match reportRecord env url (parseLog (speedOf chunks) (fullLogOf chunks))
              logFileName with
            | .ok data => [.axiosPost LOG_SERVER_ENDPOINT data]
            | .error _ => []), .ok ()⟩ := by
    rw [Eff.bind_ok (executeCurl_result_ok url chunks), Eff.bind_ok hn,
      Eff.bind_ok (saveLocally_eq _ _ _).2, Eff.bind_ok (uploadLog_eq _ _ _ _).2,
      executeCurl_events, (saveLocally_eq _ _ _).1, (uploadLog_eq _ _ _ _).1,
      (postReport_eq _ _ _ _ _).1, (postReport_eq _ _ _ _ _).2, parseLog_fullLog]
    simp [liftExcept]
  rw [processTarget_eq, hcurl, hbody, Eff.tryCatch_ok (a := ()) rfl]

theorem processTarget_probes (env : Env) (url : Target) (w : Scenario) :
    probesAttempted (processTarget env url w).events = [curlArgs url] := by
  by_cases hs : probeSucceeds w = true
  · have hcurl : ∃ chunks, w.curl = .closed chunks (some 0) := by
      unfold probeSucceeds at hs
      split at hs
      · exact ⟨_, by assumption⟩
      · exact absurd hs (by simp)
    obtain ⟨chunks, hcurl⟩ := hcurl
    cases hn : createLogFileName env.newURL w.isoNow url.url with
    | error e =>
      have hurl : env.newURL url.url = none := by
        unfold createLogFileName at hn
        cases hu : env.newURL url.url with
        | none => rfl
        | some u => simp [hu] at hn
      rw [processTarget_events_of_invalid_url env url w chunks hcurl hurl]
      rfl
    | ok logFileName =>
      rw [processTarget_events_of_success env url w chunks logFileName hcurl hn]
      unfold sendEvents
      cases reportRecord env url (parseLog (speedOf chunks) (fullLogOf chunks)) logFileName <;>
        split_ifs <;> simp [probesAttempted]
  · rw [processTarget_events_of_not_succeeds env url w (by simpa using hs)]
    rfl

theorem processTarget_writeCount_of_success (env : Env) (url : Target) (w : Scenario)
    (hs : probeSucceeds w = true) (hurl : (env.newURL url.url).isSome = true) :
    writeCount (processTarget env url w).events = 1 := by
  have hcurl : ∃ chunks, w.curl = .closed chunks (some 0) := by
    unfold probeSucceeds at hs
    split at hs
    · exact ⟨_, by assumption⟩
    · exact absurd hs (by simp)
  obtain ⟨chunks, hcurl⟩ := hcurl
  obtain ⟨u, hu⟩ := Option.isSome_iff_exists.mp hurl
  have hn : ∃ logFileName, createLogFileName env.newURL w.isoNow url.url = .ok logFileName := by
    unfold createLogFileName
    rw [hu]
    exact ⟨_, rfl⟩
  obtain ⟨logFileName, hn⟩ := hn
  rw [processTarget_events_of_success env url w chunks logFileName hcurl hn]
  unfold sendEvents
  cases reportRecord env url (parseLog (speedOf chunks) (fullLogOf chunks)) logFileName <;>
    split_ifs <;> simp [writeCount]

theorem runLoop_probes (env : Env) (runs : List (Target × Scenario)) :
    probesAttempted (runLoop env runs).events = runs.map (fun r => curlArgs r.1) := by
  induction runs with
  | nil => rfl
  | cons r rest ih =>
    obtain ⟨url, w⟩ := r
    rw [runLoop_events_cons]
    unfold probesAttempted at ih ⊢
    rw [List.filterMap_append, ih]
    have := processTarget_probes env url w
    unfold probesAttempted at this
    rw [this]
    rfl

theorem runLoop_writeCount_of_success (env : Env) (runs : List (Target × Scenario))
    (h : ∀ r ∈ runs, probeSucceeds r.2 = true ∧ (env.newURL r.1.url).isSome = true) :
    writeCount (runLoop env runs).events = runs.length := by
  induction runs with
  | nil => rfl
  | cons r rest ih =>
    obtain ⟨url, w⟩ := r
    rw [runLoop_events_cons]
    have h1 := processTarget_writeCount_of_success env url w
      (h _ (List.mem_cons_self _ _)).1 (h _ (List.mem_cons_self _ _)).2
    have h2 := ih (fun x hx => h x (List.mem_cons_of_mem _ hx))
    unfold writeCount at h1 h2 ⊢
    rw [List.countP_append, h1, h2, List.length_cons]
    omega

/-- C4 (the claim as stated fails): of two targets, the first with a probe
that exits with code 7 and the second `example.com/a.bin` with a probe that
succeeds, both are probed in order, but the second is not a URL for `new URL`,
so there is no local write at all where the claim states one. -/
theorem runAllTests_no_write_for_unparsed_url :
    probeSucceeds exampleExit7 = false ∧ probeSucceeds exampleSuccess = true ∧
    probesAttempted
        (runAllTests exampleEnv [(targetA, exampleExit7), (targetNoScheme, exampleSuccess)]).events
      = [curlArgs targetA, curlArgs targetNoScheme] ∧
    writeCount
        (runAllTests exampleEnv [(targetA, exampleExit7), (targetNoScheme, exampleSuccess)]).events
      = 0 ∧
    writeCount
        (runAllTests exampleEnv [(targetA, exampleExit7), (targetNoScheme, exampleSuccess)]).events
      ≠ [(targetA, exampleExit7), (targetNoScheme, exampleSuccess)].length - 1 := by
  decide

/-- C4 (amended): once the log directory exists, when the probe fails for
the target at one position and succeeds for every other target, and the url of
every other target is accepted by `new URL`, the probe is attempted for all the
targets in order and the number of local writes is the number of targets minus
one. -/
theorem runAllTests_one_failure (env : Env) (pre post : List (Target × Scenario))
    (url : Target) (w : Scenario)
    (hmk : env.mkdirOk = true)
    (hfail : probeSucceeds w = false)
    (hpre : ∀ r ∈ pre, probeSucceeds r.2 = true ∧ (env.newURL r.1.url).isSome = true)
    (hpost : ∀ r ∈ post, probeSucceeds r.2 = true ∧ (env.newURL r.1.url).isSome = true) :
    probesAttempted (runAllTests env (pre ++ (url, w) :: post)).events
        = (pre ++ (url, w) :: post).map (fun r => curlArgs r.1) ∧
    writeCount (runAllTests env (pre ++ (url, w) :: post)).events
        = (pre ++ (url, w) :: post).length - 1 := by
  constructor
  · rw [runAllTests_events _ _ hmk]
    exact runLoop_probes env _
  · rw [runAllTests_events _ _ hmk, runLoop_events_append, runLoop_events_cons,
      processTarget_events_of_not_succeeds env url w hfail]
    have h1 := runLoop_writeCount_of_success env pre hpre
    have h2 := runLoop_writeCount_of_success env post hpost
    unfold writeCount at h1 h2 ⊢
    rw [List.countP_cons, List.countP_append, List.countP_append, h1, h2]
    simp

theorem runAllTests_one_failure_witness :
    probesAttempted (runAllTests exampleEnv
        ([(targetA, exampleSuccess)] ++ (targetB, exampleExit7)
          :: [(targetC, exampleSuccess)])).events
      = ([(targetA, exampleSuccess)] ++ (targetB, exampleExit7)
          :: [(targetC, exampleSuccess)]).map (fun r => curlArgs r.1) ∧
    writeCount (runAllTests exampleEnv
        ([(targetA, exampleSuccess)] ++ (targetB, exampleExit7)
          :: [(targetC, exampleSuccess)])).events
      = ([(targetA, exampleSuccess)] ++ (targetB, exampleExit7)
          :: [(targetC, exampleSuccess)]).length - 1 :=
  runAllTests_one_failure exampleEnv [(targetA, exampleSuccess)] [(targetC, exampleSuccess)]
    targetB exampleExit7 (by decide) (by decide) (by decide) (by decide)

/-- C5 (the claim as stated fails): with a probe that exits with code 0, the
target `example.com/a.bin` gets no write, no upload and no post, because
`new URL` throws before the three blocks; and with the variable `curl_command`
unset, the target `https://example.com/a.bin` gets its write and its upload but
no post. -/
theorem processTarget_sinks_skipped :
    probeSucceeds exampleSuccess = true ∧
    (processTarget exampleEnv targetNoScheme exampleSuccess).events
      = [.spawn "curl".toList (curlArgs targetNoScheme)] ∧
    (processTarget exampleEnvNoTemplate targetA exampleSuccess).events
      = [.spawn "curl".toList (curlArgs targetA),
          .writeFile "curl_logs/a.bin_2025-11-13T15-00-00.log".toList
            "< x-cache: HIT\n12345.0\n".toList,
          .uploadToS3 "< x-cache: HIT\n12345.0\n".toList
            "a.bin_2025-11-13T15-00-00.log".toList] := by
  decide

/-- C5 (amended): for a target whose probe exits with code 0, whose url is
accepted by `new URL`, in a run where the log directory exists and the command
template is set: whatever the outcomes of the write, of the send and of the
post, the iteration performs the local write, enters `uploadToS3` and posts the
report, in this order, returns normally, and the remaining targets are
processed afterwards. -/
theorem processTarget_all_sinks (env : Env) (pre post : List (Target × Scenario))
    (url : Target) (w : Scenario) (chunks : List (Stream × Str)) (u : URL) (template : Str)
    (hmk : env.mkdirOk = true)
    (hcurl : w.curl = .closed chunks (some 0))
    (hurl : env.newURL url.url = some u)
    (htpl : env.curl_command = some template) :
    ∃ (logFileName : Str) (data : ReportRecord),
      createLogFileName env.newURL w.isoNow url.url = .ok logFileName ∧
      reportRecord env url (parseLog (speedOf chunks) (fullLogOf chunks)) logFileName
        = .ok data ∧
      (processTarget env url w).events
        = [.spawn "curl".toList (curlArgs url),
            .writeFile (logFilePathOf logFileName) (fullLogOf chunks),
            .uploadToS3 (fullLogOf chunks) logFileName]
          ++ sendEvents env.s3 (fullLogOf chunks) logFileName
          ++ [.axiosPost LOG_SERVER_ENDPOINT data] ∧
      (processTarget env url w).result = .ok () ∧
      (runAllTests env (pre ++ (url, w) :: post)).events
        = (runAllTests env pre).events ++ (processTarget env url w).events
            ++ (runLoop env post).events := by
  have hn : ∃ logFileName, createLogFileName env.newURL w.isoNow url.url = .ok logFileName := by
    unfold createLogFileName
    rw [hurl]
    exact ⟨_, rfl⟩
  obtain ⟨logFileName, hn⟩ := hn
  have hd : ∃ data, reportRecord env url (parseLog (speedOf chunks) (fullLogOf chunks))
      logFileName = .ok data := by
    unfold reportRecord curlCommandField
    rw [htpl]
    exact ⟨_, rfl⟩
  obtain ⟨data, hd⟩ := hd
  refine ⟨logFileName, data, hn, hd, ?_, processTarget_result env url w,
    runAllTests_events_split env pre post url w hmk⟩
  rw [processTarget_events_of_success env url w chunks logFileName hcurl hn, hd]

theorem processTarget_all_sinks_witness :
    ∃ (logFileName : Str) (data : ReportRecord),
      createLogFileName exampleEnv.newURL exampleSuccess.isoNow targetA.url = .ok logFileName ∧
      reportRecord exampleEnv targetA
          (parseLog
            (speedOf [(.stderr, "< x-cache: HIT\n".toList), (.stdout, "12345.0\n".toList)])
            (fullLogOf [(.stderr, "< x-cache: HIT\n".toList), (.stdout, "12345.0\n".toList)]))
          logFileName
        = .ok data ∧
      (processTarget exampleEnv targetA exampleSuccess).events
        = [.spawn "curl".toList (curlArgs targetA),
            .writeFile (logFilePathOf logFileName)
              (fullLogOf [(.stderr, "< x-cache: HIT\n".toList), (.stdout, "12345.0\n".toList)]),
            .uploadToS3
              (fullLogOf [(.stderr, "< x-cache: HIT\n".toList), (.stdout, "12345.0\n".toList)])
              logFileName]
          ++ sendEvents exampleEnv.s3
              (fullLogOf [(.stderr, "< x-cache: HIT\n".toList), (.stdout, "12345.0\n".toList)])
              logFileName
          ++ [.axiosPost LOG_SERVER_ENDPOINT data] ∧
      (processTarget exampleEnv targetA exampleSuccess).result = .ok () ∧
      (runAllTests exampleEnv ([(targetB, exampleExit7)] ++ (targetA, exampleSuccess)
          :: [(targetC, exampleSuccess)])).events
        = (runAllTests exampleEnv [(targetB, exampleExit7)]).events
            ++ (processTarget exampleEnv targetA exampleSuccess).events
            ++ (runLoop exampleEnv [(targetC, exampleSuccess)]).events :=
  processTarget_all_sinks exampleEnv [(targetB, exampleExit7)] [(targetC, exampleSuccess)]
    targetA exampleSuccess
    [(.stderr, "< x-cache: HIT\n".toList), (.stdout, "12345.0\n".toList)]
    ⟨"/a.bin".toList⟩ "curl -o /dev/null URL_GOES_HERE -v".toList rfl rfl (by decide) rfl

/-- C6: for a target whose probe closes with an exit code other than 0,
`executeCurl` rejects, the iteration spawns the probe and does nothing else (no
write, no upload, no post), it returns normally, and the remaining targets are
processed afterwards. -/
theorem runAllTests_nonzero_exit (env : Env) (pre post : List (Target × Scenario))
    (url : Target) (w : Scenario) (chunks : List (Stream × Str)) (code : Option Nat)
    (hmk : env.mkdirOk = true)
    (hcurl : w.curl = .closed chunks code)
    (hcode : code ≠ some 0) :
    (executeCurl url w.curl).result = .error (.curlExit code (fullLogOf chunks)) ∧
    (processTarget env url w).events = [.spawn "curl".toList (curlArgs url)] ∧
    (processTarget env url w).result = .ok () ∧
    (runAllTests env (pre ++ (url, w) :: post)).events
      = (runAllTests env pre).events ++ [.spawn "curl".toList (curlArgs url)]
          ++ (runLoop env post).events := by
  have hs : probeSucceeds w = false := by
    unfold probeSucceeds
    rw [hcurl]
    split
    · rename_i h
      cases h
      exact absurd rfl hcode
    · rfl
  refine ⟨?_, processTarget_events_of_not_succeeds env url w hs, processTarget_result env url w,
    ?_⟩
  · rw [hcurl]
    exact executeCurl_result_closed url chunks code hcode
  · rw [runAllTests_events_split env pre post url w hmk,
      processTarget_events_of_not_succeeds env url w hs]

theorem runAllTests_nonzero_exit_witness :
    (executeCurl targetB exampleExit7.curl).result
      = .error (.curlExit (some 7) (fullLogOf [(.stderr, "* connect failed\n".toList)])) ∧
    (processTarget exampleEnv targetB exampleExit7).events
      = [.spawn "curl".toList (curlArgs targetB)] ∧
    (processTarget exampleEnv targetB exampleExit7).result = .ok () ∧
    (runAllTests exampleEnv ([(targetA, exampleSuccess)] ++ (targetB, exampleExit7)
        :: [(targetC, exampleSuccess)])).events
      = (runAllTests exampleEnv [(targetA, exampleSuccess)]).events
          ++ [.spawn "curl".toList (curlArgs targetB)]
          ++ (runLoop exampleEnv [(targetC, exampleSuccess)]).events :=
  runAllTests_nonzero_exit exampleEnv [(targetA, exampleSuccess)] [(targetC, exampleSuccess)]
    targetB exampleExit7 [(.stderr, "* connect failed\n".toList)] (some 7) rfl rfl (by decide)

end CurlSpeedTester
